import Mathlib

/-!
Shallow embedding of the `reximage` Go package (src/reximage.go): the in-memory
image model (`ImageData`, `CellData`), cell colour conversions, and the `.xp`
binary codec (`Import`/`Export`) modelled at the level of the gzip-decompressed
byte stream.  Go `int` is modelled as `Int`, `uint32`/`uint8` fields as `Nat`
with explicit bounds where the machine width matters, byte streams as
`List Nat` (each entry a byte value).  Fallible operations return
`Except String`/`Option`; a Go runtime panic (out-of-range slice index, which
the source can hit only on images violating the `len(Cells) = Width*Height`
invariant) is modelled as a distinguished error value.
-/

set_option maxHeartbeats 1000000
set_option maxRecDepth 8192

/-- Cell record: glyph code plus foreground and background RGB channels
(source: struct `CellData`, fields `Glyph uint32` and six `uint8` channels). -/
structure CellData where
  Glyph : Nat
  R_f : Nat
  G_f : Nat
  B_f : Nat
  R_b : Nat
  G_b : Nat
  B_b : Nat
deriving DecidableEq, Repr

/-- Zero value of `CellData` (Go's zero struct), the value a Go variable holds
before assignment; used where the source ignores a `GetCell` error. -/
def CellData.zero : CellData := ⟨0, 0, 0, 0, 0, 0, 0⟩

/-- Result of `Clear` (source: `Clear`): glyph 0, foreground black,
background the undrawn sentinel (255, 0, 255). -/
def CellData.cleared : CellData := ⟨0, 0, 0, 0, 255, 0, 255⟩

/-- Source `Clear`: overwrites every field, ignoring the previous value. -/
def CellData.clear (_cd : CellData) : CellData := CellData.cleared

/-- Source `Undrawn`: background equals (255, 0, 255). -/
def CellData.Undrawn (cd : CellData) : Bool :=
  cd.R_b == 255 && cd.G_b == 0 && cd.B_b == 255

/-- Source `ARGB`: pack foreground and background as 0xAARRGGBB with alpha
forced to 255.  The source ORs disjoint shifted `uint8` fields, which equals
this sum for in-range channels. -/
def CellData.ARGB (cd : CellData) : Nat × Nat :=
  (0xFF000000 + cd.R_f * 65536 + cd.G_f * 256 + cd.B_f,
   0xFF000000 + cd.R_b * 65536 + cd.G_b * 256 + cd.B_b)

/-- Source `RGBA`: pack foreground and background as 0xRRGGBBAA with alpha
forced to 255. -/
def CellData.RGBA (cd : CellData) : Nat × Nat :=
  (cd.R_f * 16777216 + cd.G_f * 65536 + cd.B_f * 256 + 0xFF,
   cd.R_b * 16777216 + cd.G_b * 65536 + cd.B_b * 256 + 0xFF)

/-- Source `SetColoursARGB`: if the background's top (alpha) byte is zero the
background is set to the undrawn sentinel and the function returns (leaving
the foreground untouched); otherwise both colours are unpacked from
ARGB8888.  `fore`/`back` model `uint32` arguments. -/
def CellData.SetColoursARGB (cd : CellData) (fore back : Nat) : CellData :=
  if back / 16777216 % 256 = 0 then
    { cd with B_b := 0xFF, G_b := 0, R_b := 0xFF }
  else
    { cd with
      B_f := fore % 256, G_f := fore / 256 % 256, R_f := fore / 65536 % 256,
      B_b := back % 256, G_b := back / 256 % 256, R_b := back / 65536 % 256 }

/-- Source `SetColoursRGBA`: as `SetColoursARGB` but the opacity byte is the
low byte of `back` and channels are unpacked from RGBA8888. -/
def CellData.SetColoursRGBA (cd : CellData) (fore back : Nat) : CellData :=
  if back % 256 = 0 then
    { cd with R_b := 0xFF, G_b := 0, B_b := 0xFF }
  else
    { cd with
      B_f := fore / 256 % 256, G_f := fore / 65536 % 256, R_f := fore / 16777216 % 256,
      B_b := back / 256 % 256, G_b := back / 65536 % 256, R_b := back / 16777216 % 256 }

/-- Well-formed cell: every field within its Go machine-integer range
(`Glyph uint32`, channels `uint8`).  Guaranteed by Go's types. -/
def WFCell (c : CellData) : Prop :=
  c.Glyph < 4294967296 ∧ c.R_f < 256 ∧ c.G_f < 256 ∧ c.B_f < 256 ∧
  c.R_b < 256 ∧ c.G_b < 256 ∧ c.B_b < 256

instance (c : CellData) : Decidable (WFCell c) := by unfold WFCell; infer_instance

/-- Image: width, height (Go `int`, modelled as `Int`) and a row-major cell
list (source: struct `ImageData`). -/
structure ImageData where
  Width : Int
  Height : Int
  Cells : List CellData
deriving DecidableEq, Repr

/-- Source `Init`: sets the dimensions and allocates `width*height` cells, all
cleared.  (Go panics when `width*height` is negative; `Int.toNat` sends that
unreachable-for-our-claims case to an empty allocation.) -/
def ImageData.Init (width height : Int) : ImageData :=
  { Width := width, Height := height,
    Cells := List.replicate (width * height).toNat CellData.cleared }

/-- Source `GetCell`: error on an empty cell list, error on out-of-bounds
coordinates, otherwise the cell at row-major index `x + y*Width`.  The final
fallback models the Go runtime panic reachable only when
`len(Cells) < Width*Height`. -/
def ImageData.GetCell (id : ImageData) (x y : Int) : Except String CellData :=
  if id.Cells.length = 0 then
    .error "Image has no data."
  else if x ≥ id.Width ∨ y ≥ id.Height ∨ x < 0 ∨ y < 0 then
    .error "x, y coordinates out of bounds."
  else
    match id.Cells[(x + y * id.Width).toNat]? with
    | some c => .ok c
    | none => .error "panic: index out of range"

/-- Source `SetCell`: error on out-of-bounds coordinates (no empty-image
check, unlike `GetCell`), otherwise overwrite the cell at `x + y*Width`.  The
final fallback models the Go runtime panic on an index past the slice end. -/
def ImageData.SetCell (id : ImageData) (x y : Int) (cell : CellData) :
    Except String ImageData :=
  if x ≥ id.Width ∨ y ≥ id.Height ∨ x < 0 ∨ y < 0 then
    .error "x, y coordinates out of bounds."
  else if (x + y * id.Width).toNat < id.Cells.length then
    .ok { id with Cells := id.Cells.set (x + y * id.Width).toNat cell }
  else
    .error "panic: index out of range"

/-- The source's `image.SetCell(...)` call inside `Import` discards the error;
on error the image is unchanged (the error branch never mutates). -/
def ImageData.setCellIgnore (id : ImageData) (x y : Int) (cell : CellData) :
    ImageData :=
  match id.SetCell x y cell with
  | .ok id2 => id2
  | .error _ => id

/-- The source's `cell, _ := image.GetCell(x, y)` inside `Export`: on error the
cell variable keeps Go's zero value. -/
def ImageData.getCellIgnore (id : ImageData) (x y : Int) : CellData :=
  match id.GetCell x y with
  | .ok c => c
  | .error _ => CellData.zero

/-! ### Byte-stream reading (little-endian, as `binary.Read` with
`binary.LittleEndian`) -/

/-- Read a little-endian unsigned 32-bit value; fails (like a short
`io.ReadFull`) when fewer than four bytes remain. -/
def readU32 : List Nat → Option (Nat × List Nat)
  | b0 :: b1 :: b2 :: b3 :: rest =>
      some (b0 + 256 * b1 + 65536 * b2 + 16777216 * b3, rest)
  | _ => none

/-- Read one 10-byte cell record: `uint32` glyph then the six `uint8`
channels in field order (`binary.Read` of the `CellData` struct). -/
def readCell (bs : List Nat) : Option (CellData × List Nat) :=
  match readU32 bs with
  | some (g, bs1) =>
    match bs1 with
    | rf :: gf :: bf :: rb :: gb :: bb :: rest =>
        some (⟨g, rf, gf, bf, rb, gb, bb⟩, rest)
    | _ => none
  | none => none

/-- The cell-record loop of `Import` (source lines 204-215): read
`n = Width*Height` records, placing record `i` at coordinate
`(i / Height, i % Height)` via `SetCell` with the error discarded. -/
def readLayerCells : ImageData → Nat → Nat → List Nat → Option (ImageData × List Nat)
  | img, _, 0, bs => some (img, bs)
  | img, i, n + 1, bs =>
    match readCell bs with
    | some (c, bs2) =>
        readLayerCells
          (img.setCellIgnore ((i : Int) / img.Height) ((i : Int) % img.Height) c)
          (i + 1) n bs2
    | none => none

/-- The layer loop of `Import` (source lines 197-216): for each layer after
the first, read and discard the layer's width/height, then read the layer's
cell records.  A failed read aborts; in the source the error value is either
detected at the next cell read or carried to the named return, so the
observable outcome (error vs. final image) is the same. -/
def importLayers : ImageData → Nat → Nat → List Nat → Option (ImageData × List Nat)
  | img, _, 0, bs => some (img, bs)
  | img, layer, r + 1, bs =>
    if layer = 0 then
      match readLayerCells img 0 (img.Width * img.Height).toNat bs with
      | some (img2, bs2) => importLayers img2 (layer + 1) r bs2
      | none => none
    else
      match readU32 bs with
      | some (_w2, bs1) =>
        match readU32 bs1 with
        | some (_h2, bs2) =>
          match readLayerCells img 0 (img.Width * img.Height).toNat bs2 with
          | some (img2, bs3) => importLayers img2 (layer + 1) r bs3
          | none => none
        | none => none
      | none => none

/-- Source `Import`, at the level of the gzip-decompressed byte stream
(the path check, file open and gzip wrapper are the surrounding I/O shell):
read the version (accepted unvalidated), the layer count, the first layer's
dimensions, allocate the image, then composite every layer bottom to top.
Any short read aborts with an error. -/
def importBytes (bs : List Nat) : Except String ImageData :=
  match readU32 bs with
  | some (_version, bs1) =>
    match readU32 bs1 with
    | some (numLayers, bs2) =>
      match readU32 bs2 with
      | some (w, bs3) =>
        match readU32 bs3 with
        | some (h, bs4) =>
          match importLayers (ImageData.Init (w : Int) (h : Int)) 0 numLayers bs4 with
          | some (img, _) => .ok img
          | none => .error "read failed"
        | none => .error "read failed"
      | none => .error "read failed"
    | none => .error "read failed"
  | none => .error "read failed"

/-! ### Byte-stream writing (little-endian, as `binary.Write`) -/

/-- Little-endian bytes of an unsigned 32-bit value (truncating above 2^32,
as the Go conversions to `uint32` do). -/
def u32Bytes (v : Nat) : List Nat :=
  [v % 256, v / 256 % 256, v / 65536 % 256, v / 16777216 % 256]

/-- Little-endian bytes of a signed 32-bit value (two's complement). -/
def int32Bytes (v : Int) : List Nat := u32Bytes (v % 4294967296).toNat

/-- The 10 bytes `binary.Write` emits for one `CellData` record. -/
def cellBytes (c : CellData) : List Nat :=
  u32Bytes c.Glyph ++ [c.R_f, c.G_f, c.B_f, c.R_b, c.G_b, c.B_b]

/-- The cell sequence `Export` emits (source lines 240-245): `x` in the outer
loop, `y` in the inner loop, each cell fetched with `GetCell` and the error
discarded. -/
def exportCellList (img : ImageData) : List CellData :=
  (List.range img.Width.toNat).flatMap fun (x : Nat) =>
    (List.range img.Height.toNat).map fun (y : Nat) =>
      img.getCellIgnore (x : Int) (y : Int)

/-- Source `Export`, at the level of the bytes handed to the gzip writer
(source lines 234-245): version `-1`, layer count `1`, the image's width and
height narrowed to `uint32`, then the column-major cell records. -/
def exportBytes (img : ImageData) : List Nat :=
  int32Bytes (-1) ++ u32Bytes 1 ++
  u32Bytes (img.Width % 4294967296).toNat ++
  u32Bytes (img.Height % 4294967296).toNat ++
  (exportCellList img).flatMap cellBytes

/-! ### Path handling (source lines 159-162 and 224-226) -/

/-- Go `strings.HasSuffix path ".xp"`, on paths modelled as character lists. -/
def hasXpSuffix (path : List Char) : Bool :=
  ['.', 'x', 'p'].isSuffixOf path

/-- The path `Export` actually creates (source lines 224-226): `".xp"` is
appended when missing; the extension never causes a failure. -/
def exportPath (path : List Char) : List Char :=
  if hasXpSuffix path then path else path ++ ['.', 'x', 'p']

/-- The extension gate at the top of `Import` (source lines 159-162), which
runs before the file is opened. -/
def importGate (path : List Char) : Except String Unit :=
  if hasXpSuffix path then .ok () else .error "File is not an XP image."

instance {ε α : Type} [DecidableEq ε] [DecidableEq α] : DecidableEq (Except ε α) :=
  fun x y =>
    match x, y with
    | .ok a, .ok b =>
      if h : a = b then isTrue (by rw [h])
      else isFalse (fun hc => h (Except.ok.injEq .. ▸ hc))
    | .error e, .error f =>
      if h : e = f then isTrue (by rw [h])
      else isFalse (fun hc => h (Except.error.injEq .. ▸ hc))
    | .ok _, .error _ => isFalse (fun hc => Except.noConfusion hc)
    | .error _, .ok _ => isFalse (fun hc => Except.noConfusion hc)

/-! ### Proof-side decompositions of the import loop -/

/-- Read `n` consecutive cell records (the byte-consumption half of
`readLayerCells`). -/
def readNCells : Nat → List Nat → Option (List CellData × List Nat)
  | 0, bs => some ([], bs)
  | n + 1, bs =>
    match readCell bs with
    | some (c, bs2) =>
      match readNCells n bs2 with
      | some (cs, rest) => some (c :: cs, rest)
      | none => none
    | none => none

/-- Paint a list of already-read records into the image, record `i + k`
going to coordinate `((i+k) / Height, (i+k) % Height)` (the painting half of
`readLayerCells`). -/
def paintRecs : ImageData → Nat → List CellData → ImageData
  | img, _, [] => img
  | img, i, c :: rest =>
    paintRecs (img.setCellIgnore ((i : Int) / img.Height) ((i : Int) % img.Height) c)
      (i + 1) rest

/-! ### Lemmas -/

theorem setCellIgnore_Width (id : ImageData) (x y : Int) (c : CellData) :
    (id.setCellIgnore x y c).Width = id.Width := by
  unfold ImageData.setCellIgnore ImageData.SetCell
  by_cases h1 : x ≥ id.Width ∨ y ≥ id.Height ∨ x < 0 ∨ y < 0
  · simp [h1]
  · by_cases h2 : (x + y * id.Width).toNat < id.Cells.length <;> simp [h1, h2]

theorem setCellIgnore_Height (id : ImageData) (x y : Int) (c : CellData) :
    (id.setCellIgnore x y c).Height = id.Height := by
  unfold ImageData.setCellIgnore ImageData.SetCell
  by_cases h1 : x ≥ id.Width ∨ y ≥ id.Height ∨ x < 0 ∨ y < 0
  · simp [h1]
  · by_cases h2 : (x + y * id.Width).toNat < id.Cells.length <;> simp [h1, h2]

theorem setCellIgnore_length (id : ImageData) (x y : Int) (c : CellData) :
    (id.setCellIgnore x y c).Cells.length = id.Cells.length := by
  unfold ImageData.setCellIgnore ImageData.SetCell
  by_cases h1 : x ≥ id.Width ∨ y ≥ id.Height ∨ x < 0 ∨ y < 0
  · simp [h1]
  · by_cases h2 : (x + y * id.Width).toNat < id.Cells.length <;> simp [h1, h2]

theorem paintRecs_Width : ∀ (recs : List CellData) (img : ImageData) (i : Nat),
    (paintRecs img i recs).Width = img.Width := by
  intro recs
  induction recs with
  | nil => intro img i; rfl
  | cons c rest ih => intro img i; rw [paintRecs, ih, setCellIgnore_Width]

theorem paintRecs_Height : ∀ (recs : List CellData) (img : ImageData) (i : Nat),
    (paintRecs img i recs).Height = img.Height := by
  intro recs
  induction recs with
  | nil => intro img i; rfl
  | cons c rest ih => intro img i; rw [paintRecs, ih, setCellIgnore_Height]

theorem paintRecs_length : ∀ (recs : List CellData) (img : ImageData) (i : Nat),
    (paintRecs img i recs).Cells.length = img.Cells.length := by
  intro recs
  induction recs with
  | nil => intro img i; rfl
  | cons c rest ih => intro img i; rw [paintRecs, ih, setCellIgnore_length]

theorem readLayerCells_eq_readNCells :
    ∀ (n : Nat) (img : ImageData) (i : Nat) (bs : List Nat),
    readLayerCells img i n bs =
      match readNCells n bs with
      | some (cs, rest) => some (paintRecs img i cs, rest)
      | none => none := by
  intro n
  induction n with
  | zero => intro img i bs; rfl
  | succ n ih =>
    intro img i bs
    rw [readLayerCells, readNCells]
    cases hc : readCell bs with
    | none => rfl
    | some p =>
      obtain ⟨c, bs2⟩ := p
      dsimp only
      rw [ih]
      cases hn : readNCells n bs2 with
      | none => rfl
      | some q => obtain ⟨cs, rest⟩ := q; rfl

theorem readU32_u32Bytes (v : Nat) (hv : v < 4294967296) (rest : List Nat) :
    readU32 (u32Bytes v ++ rest) = some (v, rest) := by
  simp only [u32Bytes, List.cons_append, List.nil_append, readU32]
  congr 2
  omega

theorem readU32_length {bs : List Nat} {v : Nat} {rest : List Nat}
    (h : readU32 bs = some (v, rest)) : bs.length = 4 + rest.length := by
  rcases bs with _ | ⟨b0, _ | ⟨b1, _ | ⟨b2, _ | ⟨b3, t⟩⟩⟩⟩ <;>
    simp only [readU32, reduceCtorEq] at h
  obtain ⟨-, rfl⟩ := Prod.mk.injEq .. ▸ Option.some.injEq .. ▸ h
  simp only [List.length_cons]
  omega

theorem cellBytes_length (c : CellData) : (cellBytes c).length = 10 := rfl

theorem readCell_cellBytes (c : CellData) (hg : c.Glyph < 4294967296)
    (rest : List Nat) : readCell (cellBytes c ++ rest) = some (c, rest) := by
  unfold readCell cellBytes
  rw [List.append_assoc, readU32_u32Bytes c.Glyph hg]
  simp only [List.cons_append, List.nil_append]

theorem readCell_length {bs : List Nat} {c : CellData} {rest : List Nat}
    (h : readCell bs = some (c, rest)) : bs.length = 10 + rest.length := by
  unfold readCell at h
  cases h32 : readU32 bs with
  | none => rw [h32] at h; exact absurd h (by simp)
  | some p =>
    obtain ⟨g, bs1⟩ := p
    rw [h32] at h
    have hlen1 := readU32_length h32
    rcases bs1 with _ | ⟨rf, _ | ⟨gf, _ | ⟨bf, _ | ⟨rb, _ | ⟨gb, _ | ⟨bb, t⟩⟩⟩⟩⟩⟩ <;>
      simp only [reduceCtorEq] at h
    obtain ⟨-, rfl⟩ := Prod.mk.injEq .. ▸ Option.some.injEq .. ▸ h
    simp only [List.length_cons] at hlen1 ⊢
    omega

theorem readNCells_flatMap (cs : List CellData)
    (h : ∀ c ∈ cs, c.Glyph < 4294967296) (rest : List Nat) :
    readNCells cs.length (cs.flatMap cellBytes ++ rest) = some (cs, rest) := by
  induction cs with
  | nil => rfl
  | cons c cs ih =>
    rw [List.length_cons, List.flatMap_cons, List.append_assoc, readNCells,
      readCell_cellBytes c (h c (by simp)) _]
    dsimp only
    rw [ih (fun c hc => h c (by simp [hc]))]

theorem readNCells_length : ∀ {n : Nat} {bs : List Nat} {cs : List CellData}
    {rest : List Nat}, readNCells n bs = some (cs, rest) →
    bs.length = 10 * n + rest.length ∧ cs.length = n := by
  intro n
  induction n with
  | zero =>
    intro bs cs rest h
    rw [readNCells] at h
    obtain ⟨rfl, rfl⟩ := Prod.mk.injEq .. ▸ Option.some.injEq .. ▸ h
    simp
  | succ n ih =>
    intro bs cs rest h
    rw [readNCells] at h
    cases hc : readCell bs with
    | none => rw [hc] at h; exact absurd h (by simp)
    | some p =>
      obtain ⟨c, bs2⟩ := p
      rw [hc] at h
      dsimp only at h
      cases hn : readNCells n bs2 with
      | none => rw [hn] at h; exact absurd h (by simp)
      | some q =>
        obtain ⟨cs2, rest2⟩ := q
        rw [hn] at h
        obtain ⟨rfl, rfl⟩ := Prod.mk.injEq .. ▸ Option.some.injEq .. ▸ h
        have h1 := readCell_length hc
        have h2 := ih hn
        simp only [List.length_cons]
        omega

theorem readNCells_short {n : Nat} {bs : List Nat} (h : bs.length < 10 * n) :
    readNCells n bs = none := by
  cases hr : readNCells n bs with
  | none => rfl
  | some p =>
    obtain ⟨cs, rest⟩ := p
    have := (readNCells_length hr).1
    omega

theorem flatMap_cellBytes_length (cs : List CellData) :
    (cs.flatMap cellBytes).length = 10 * cs.length := by
  induction cs with
  | nil => rfl
  | cons c cs ih => simp [List.flatMap_cons, ih, cellBytes_length]; omega

theorem coord_index_lt {a b W H : Nat} (ha : a < W) (hb : b < H) :
    a + b * W < W * H := by
  calc a + b * W < W + b * W := by omega
  _ = (b + 1) * W := by ring
  _ ≤ H * W := Nat.mul_le_mul_right W hb
  _ = W * H := Nat.mul_comm H W

theorem idx_eq_iff {W H i j : Nat} (hH : 0 < H) (hW : 0 < W)
    (hi : i < W * H) (hj : j < W * H) :
    (j % W) * H + j / W = i ↔ j = i / H + (i % H) * W := by
  have hdivW : j / W < H := (Nat.div_lt_iff_lt_mul hW).mpr (by rw [Nat.mul_comm]; exact hj)
  have hdivH : i / H < W := (Nat.div_lt_iff_lt_mul hH).mpr (by omega)
  constructor
  · intro h
    have hiH : i / H = j % W := by
      rw [← h, Nat.add_comm, Nat.add_mul_div_right _ _ hH, Nat.div_eq_of_lt hdivW,
        Nat.zero_add]
    have hiM : i % H = j / W := by
      rw [← h, Nat.add_comm, Nat.add_mul_mod_self_right, Nat.mod_eq_of_lt hdivW]
    rw [hiH, hiM, Nat.mod_add_div']
  · intro h
    subst h
    rw [Nat.add_mul_mod_self_right, Nat.mod_eq_of_lt hdivH,
      Nat.add_mul_div_right _ _ hW, Nat.div_eq_of_lt hdivH, Nat.zero_add,
      Nat.mul_comm, Nat.div_add_mod]

theorem setCellIgnore_eq_set {img : ImageData} {W H a b : Nat} (c : CellData)
    (hW : img.Width = (W : Int)) (hH : img.Height = (H : Int))
    (hlen : img.Cells.length = W * H) (ha : a < W) (hb : b < H) :
    img.setCellIgnore (a : Int) (b : Int) c =
      { img with Cells := img.Cells.set (a + b * W) c } := by
  have hidx : (((a : Int)) + ((b : Int)) * img.Width).toNat = a + b * W := by
    rw [hW]
    omega
  have hcond : ¬(((a : Int)) ≥ img.Width ∨ ((b : Int)) ≥ img.Height ∨
      ((a : Int)) < 0 ∨ ((b : Int)) < 0) := by
    rw [hW, hH]
    omega
  have hlt : (((a : Int)) + ((b : Int)) * img.Width).toNat < img.Cells.length := by
    rw [hidx, hlen]; exact coord_index_lt ha hb
  unfold ImageData.setCellIgnore ImageData.SetCell
  rw [if_neg hcond, if_pos hlt, hidx]

theorem paintRecs_spec {W H : Nat} (hH : 0 < H) :
    ∀ (recs : List CellData) (img : ImageData) (i : Nat),
      img.Width = (W : Int) → img.Height = (H : Int) →
      img.Cells.length = W * H → i + recs.length ≤ W * H →
      ∀ j, j < W * H →
        (paintRecs img i recs).Cells[j]? =
          if i ≤ (j % W) * H + j / W ∧ (j % W) * H + j / W < i + recs.length then
            recs[(j % W) * H + j / W - i]?
          else img.Cells[j]? := by
  intro recs
  induction recs with
  | nil =>
    intro img i hW hHt hlen hle j hj
    rw [paintRecs, if_neg (by simp only [List.length_nil]; omega)]
  | cons c rest ih =>
    intro img i hW hHt hlen hle j hj
    simp only [List.length_cons] at hle
    have hWpos : 0 < W := by
      rcases Nat.eq_zero_or_pos W with h0 | h
      · subst h0; simp at hj
      · exact h
    have hi : i < W * H := by omega
    have hdivH : i / H < W := (Nat.div_lt_iff_lt_mul hH).mpr hi
    have hmodH : i % H < H := Nat.mod_lt _ hH
    have hdivcast : (i : Int) / img.Height = ((i / H : Nat) : Int) := by
      rw [hHt]; exact (Int.natCast_div i H).symm
    have hmodcast : (i : Int) % img.Height = ((i % H : Nat) : Int) := by
      rw [hHt]; exact (Int.natCast_mod i H).symm
    rw [paintRecs, hdivcast, hmodcast, setCellIgnore_eq_set c hW hHt hlen hdivH hmodH]
    have hlen2 : (({ img with Cells := img.Cells.set (i / H + (i % H) * W) c }) :
        ImageData).Cells.length = W * H := by
      simpa [List.length_set] using hlen
    rw [ih { img with Cells := img.Cells.set (i / H + i % H * W) c } (i + 1)
      hW hHt hlen2 (by omega) j hj]
    have hkey : (j % W) * H + j / W = i ↔ j = i / H + (i % H) * W :=
      idx_eq_iff hH hWpos hi hj
    have hn0 : i / H + (i % H) * W < W * H := coord_index_lt hdivH hmodH
    by_cases hji : (j % W) * H + j / W = i
    · have hj0 : j = i / H + (i % H) * W := hkey.mp hji
      rw [if_neg (by omega), if_pos (by simp only [List.length_cons]; omega)]
      show (img.Cells.set (i / H + (i % H) * W) c)[j]? = _
      rw [hji, Nat.sub_self, List.getElem?_cons_zero, hj0,
        List.getElem?_set_self (by rw [hlen]; exact hn0)]
    · have hne : i / H + (i % H) * W ≠ j := fun h => hji (hkey.mpr h.symm)
      by_cases hc2 : i + 1 ≤ (j % W) * H + j / W ∧
          (j % W) * H + j / W < i + 1 + rest.length
      · rw [if_pos hc2, if_pos (by simp only [List.length_cons]; omega)]
        have hsub : (j % W) * H + j / W - i = ((j % W) * H + j / W - (i + 1)) + 1 := by
          omega
        rw [hsub, List.getElem?_cons_succ]
      · rw [if_neg hc2, if_neg (by simp only [List.length_cons]; omega)]
        show (img.Cells.set (i / H + (i % H) * W) c)[j]? = _
        rw [List.getElem?_set_ne hne]

theorem GetCell_ok_mem {id : ImageData} {x y : Int} {c : CellData}
    (h : id.GetCell x y = .ok c) : c ∈ id.Cells := by
  unfold ImageData.GetCell at h
  by_cases h0 : id.Cells.length = 0
  · rw [if_pos h0] at h; exact absurd h (by simp)
  · rw [if_neg h0] at h
    by_cases h1 : x ≥ id.Width ∨ y ≥ id.Height ∨ x < 0 ∨ y < 0
    · rw [if_pos h1] at h; exact absurd h (by simp)
    · rw [if_neg h1] at h
      cases hg : id.Cells[(x + y * id.Width).toNat]? with
      | none => rw [hg] at h; exact absurd h (by simp)
      | some c2 =>
        rw [hg] at h
        obtain rfl : c2 = c := by exact Except.ok.injEq .. ▸ h
        exact List.getElem?_mem hg

theorem getCellIgnore_of_getElem {img : ImageData} {W H a b : Nat} {c : CellData}
    (hW : img.Width = (W : Int)) (hH : img.Height = (H : Int))
    (hlen : img.Cells.length = W * H) (ha : a < W) (hb : b < H)
    (hc : img.Cells[a + b * W]? = some c) :
    img.getCellIgnore (a : Int) (b : Int) = c := by
  have hidx : (((a : Int)) + ((b : Int)) * img.Width).toNat = a + b * W := by
    rw [hW]; omega
  have hcond : ¬(((a : Int)) ≥ img.Width ∨ ((b : Int)) ≥ img.Height ∨
      ((a : Int)) < 0 ∨ ((b : Int)) < 0) := by
    rw [hW, hH]; omega
  have h0 : ¬(img.Cells.length = 0) := by
    have := coord_index_lt ha hb; omega
  unfold ImageData.getCellIgnore ImageData.GetCell
  rw [if_neg h0, if_neg hcond, hidx, hc]

theorem flatMap_range_length {α : Type} (f : Nat → List α) (W H : Nat)
    (hlen : ∀ x, (f x).length = H) :
    ((List.range W).flatMap f).length = W * H := by
  induction W with
  | zero => simp
  | succ W ih =>
    rw [List.range_succ, List.flatMap_append, List.length_append, ih]
    simp only [List.flatMap_cons, List.flatMap_nil, List.append_nil, hlen]
    ring

theorem flatMap_range_getElem {α : Type} (f : Nat → List α) {W H k : Nat} (hH : 0 < H)
    (hlen : ∀ x, (f x).length = H) (hk : k < W * H) :
    ((List.range W).flatMap f)[k]? = (f (k / H))[k % H]? := by
  induction W with
  | zero => simp at hk
  | succ W ih =>
    have hexp : (W + 1) * H = W * H + H := by ring
    have hl : ((List.range W).flatMap f).length = W * H := flatMap_range_length f W H hlen
    rw [List.range_succ, List.flatMap_append, List.getElem?_append, hl]
    by_cases h : k < W * H
    · rw [if_pos h]; exact ih h
    · rw [if_neg h]
      simp only [List.flatMap_cons, List.flatMap_nil, List.append_nil]
      have h1 : k / H = W := by
        rw [show k = (k - W * H) + W * H by omega, Nat.add_mul_div_right _ _ hH,
          Nat.div_eq_of_lt (by omega), Nat.zero_add]
      have h2 : k % H = k - W * H := by
        conv_lhs => rw [show k = (k - W * H) + W * H by omega]
        rw [Nat.add_mul_mod_self_right, Nat.mod_eq_of_lt (by omega)]
      rw [h1, h2]

theorem exportCellList_length {img : ImageData} {W H : Nat}
    (hW : img.Width = (W : Int)) (hH : img.Height = (H : Int)) :
    (exportCellList img).length = W * H := by
  unfold exportCellList
  rw [hW, hH]
  simp only [Int.toNat_natCast]
  refine flatMap_range_length _ W H (fun x => ?_)
  simp

theorem exportCellList_getElem {img : ImageData} {W H k : Nat}
    (hW : img.Width = (W : Int)) (hH : img.Height = (H : Int))
    (hlen : img.Cells.length = W * H) (hk : k < W * H) :
    (exportCellList img)[k]? = img.Cells[k / H + (k % H) * W]? := by
  have hHpos : 0 < H := by
    rcases Nat.eq_zero_or_pos H with h0 | h
    · subst h0; simp at hk
    · exact h
  have hdiv : k / H < W := (Nat.div_lt_iff_lt_mul hHpos).mpr hk
  have hmod : k % H < H := Nat.mod_lt _ hHpos
  have hidx : k / H + (k % H) * W < W * H := coord_index_lt hdiv hmod
  obtain ⟨c, hc⟩ : ∃ c, img.Cells[k / H + (k % H) * W]? = some c :=
    ⟨_, List.getElem?_eq_getElem (by rw [hlen]; exact hidx)⟩
  have hlens : ∀ x : Nat,
      ((List.range H).map (fun y : Nat => img.getCellIgnore (x : Int) (y : Int))).length = H :=
    fun x => by simp
  unfold exportCellList
  rw [hW, hH]
  simp only [Int.toNat_natCast]
  rw [flatMap_range_getElem _ hHpos hlens hk, List.getElem?_map,
    List.getElem?_range hmod, Option.map_some', hc]
  rw [getCellIgnore_of_getElem hW hH hlen hdiv hmod hc]

theorem exportCellList_glyph_lt {img : ImageData}
    (hwf : ∀ c ∈ img.Cells, WFCell c) :
    ∀ c ∈ exportCellList img, c.Glyph < 4294967296 := by
  intro c hc
  unfold exportCellList at hc
  rw [List.mem_flatMap] at hc
  obtain ⟨x, _, hcx⟩ := hc
  rw [List.mem_map] at hcx
  obtain ⟨y, _, rfl⟩ := hcx
  unfold ImageData.getCellIgnore
  cases hg : img.GetCell (x : Int) (y : Int) with
  | error e => change CellData.zero.Glyph < 4294967296; decide
  | ok cc => exact (hwf cc (GetCell_ok_mem hg)).1

theorem Init_length_natCast (w h : Nat) :
    (ImageData.Init (w : Int) (h : Int)).Cells.length = w * h := by
  unfold ImageData.Init
  simp only [List.length_replicate]
  omega

theorem imageData_eq_of_components {a b : ImageData} (h1 : a.Width = b.Width)
    (h2 : a.Height = b.Height) (h3 : a.Cells = b.Cells) : a = b := by
  cases a; cases b
  simp only at h1 h2 h3
  rw [h1, h2, h3]

theorem readLayerCells_dims {img : ImageData} {i n : Nat} {bs : List Nat}
    {img2 : ImageData} {rest : List Nat}
    (h : readLayerCells img i n bs = some (img2, rest)) :
    img2.Width = img.Width ∧ img2.Height = img.Height ∧
      img2.Cells.length = img.Cells.length := by
  rw [readLayerCells_eq_readNCells] at h
  cases hr : readNCells n bs with
  | none => rw [hr] at h; exact absurd h (by simp)
  | some p =>
    obtain ⟨cs, rest2⟩ := p
    rw [hr] at h
    dsimp only at h
    obtain ⟨rfl, rfl⟩ := Prod.mk.injEq .. ▸ Option.some.injEq .. ▸ h
    exact ⟨paintRecs_Width cs img i, paintRecs_Height cs img i, paintRecs_length cs img i⟩

theorem importLayers_dims : ∀ (r : Nat) (img : ImageData) (layer : Nat) (bs : List Nat)
    {img2 : ImageData} {rest : List Nat},
    importLayers img layer r bs = some (img2, rest) →
    img2.Width = img.Width ∧ img2.Height = img.Height ∧
      img2.Cells.length = img.Cells.length := by
  intro r
  induction r with
  | zero =>
    intro img layer bs img2 rest h
    rw [importLayers] at h
    obtain ⟨rfl, rfl⟩ := Prod.mk.injEq .. ▸ Option.some.injEq .. ▸ h
    exact ⟨rfl, rfl, rfl⟩
  | succ r ih =>
    intro img layer bs img2 rest h
    rw [importLayers] at h
    by_cases hl : layer = 0
    · rw [if_pos hl] at h
      cases hr : readLayerCells img 0 (img.Width * img.Height).toNat bs with
      | none => rw [hr] at h; exact absurd h (by simp)
      | some p =>
        obtain ⟨imgA, bsA⟩ := p
        rw [hr] at h
        dsimp only at h
        have h1 := readLayerCells_dims hr
        have h2 := ih imgA (layer + 1) bsA h
        exact ⟨h2.1.trans h1.1, h2.2.1.trans h1.2.1, h2.2.2.trans h1.2.2⟩
    · rw [if_neg hl] at h
      cases hw : readU32 bs with
      | none => rw [hw] at h; exact absurd h (by simp)
      | some pw =>
        obtain ⟨w2, bs1⟩ := pw
        rw [hw] at h
        dsimp only at h
        cases hh2 : readU32 bs1 with
        | none => rw [hh2] at h; exact absurd h (by simp)
        | some ph =>
          obtain ⟨h2v, bs2⟩ := ph
          rw [hh2] at h
          dsimp only at h
          cases hr : readLayerCells img 0 (img.Width * img.Height).toNat bs2 with
          | none => rw [hr] at h; exact absurd h (by simp)
          | some p =>
            obtain ⟨imgA, bsA⟩ := p
            rw [hr] at h
            dsimp only at h
            have h1 := readLayerCells_dims hr
            have hrec := ih imgA (layer + 1) bsA h
            exact ⟨hrec.1.trans h1.1, hrec.2.1.trans h1.2.1, hrec.2.2.trans h1.2.2⟩

theorem importBytes_ok_dims {bs : List Nat} {img : ImageData}
    (h : importBytes bs = .ok img) :
    ∃ w h2 : Nat, img.Width = (w : Int) ∧ img.Height = (h2 : Int) ∧
      img.Cells.length = w * h2 := by
  unfold importBytes at h
  cases h1 : readU32 bs with
  | none => rw [h1] at h; exact absurd h (by simp)
  | some p1 =>
    obtain ⟨v, bs1⟩ := p1
    rw [h1] at h; dsimp only at h
    cases h2 : readU32 bs1 with
    | none => rw [h2] at h; exact absurd h (by simp)
    | some p2 =>
      obtain ⟨numLayers, bs2⟩ := p2
      rw [h2] at h; dsimp only at h
      cases h3 : readU32 bs2 with
      | none => rw [h3] at h; exact absurd h (by simp)
      | some p3 =>
        obtain ⟨wv, bs3⟩ := p3
        rw [h3] at h; dsimp only at h
        cases h4 : readU32 bs3 with
        | none => rw [h4] at h; exact absurd h (by simp)
        | some p4 =>
          obtain ⟨hv, bs4⟩ := p4
          rw [h4] at h; dsimp only at h
          cases h5 : importLayers (ImageData.Init (wv : Int) (hv : Int)) 0 numLayers bs4 with
          | none => rw [h5] at h; exact absurd h (by simp)
          | some p5 =>
            obtain ⟨img2, rest⟩ := p5
            rw [h5] at h; dsimp only at h
            obtain rfl : img2 = img := by
              exact Except.ok.injEq .. ▸ h
            have hd := importLayers_dims numLayers _ 0 bs4 h5
            refine ⟨wv, hv, ?_, ?_, ?_⟩
            · exact hd.1
            · exact hd.2.1
            · rw [hd.2.2, Init_length_natCast]

theorem importLayers_single (img : ImageData) (bs : List Nat) :
    importLayers img 0 1 bs =
      match readLayerCells img 0 (img.Width * img.Height).toNat bs with
      | some (img2, bs2) => some (img2, bs2)
      | none => none := by
  show (match readLayerCells img 0 (img.Width * img.Height).toNat bs with
    | some (img2, bs2) => importLayers img2 (0 + 1) 0 bs2
    | none => none) = _
  cases hr : readLayerCells img 0 (img.Width * img.Height).toNat bs with
  | none => rfl
  | some p =>
    obtain ⟨i2, b2⟩ := p
    rfl

theorem roundtrip_paint_eq {img : ImageData} {W H : Nat}
    (hW : img.Width = (W : Int)) (hH : img.Height = (H : Int))
    (hlen : img.Cells.length = W * H) :
    paintRecs (ImageData.Init (W : Int) (H : Int)) 0 (exportCellList img) = img := by
  have hcs : (exportCellList img).length = W * H := exportCellList_length hW hH
  apply imageData_eq_of_components
  · rw [paintRecs_Width, hW]; rfl
  · rw [paintRecs_Height, hH]; rfl
  · rcases Nat.eq_zero_or_pos (W * H) with hWH | hWH
    · have h0 : (paintRecs (ImageData.Init (W : Int) (H : Int)) 0
          (exportCellList img)).Cells.length = 0 := by
        rw [paintRecs_length, Init_length_natCast]
        exact hWH
      have h1 : img.Cells.length = 0 := by rw [hlen]; exact hWH
      rw [List.eq_nil_of_length_eq_zero h0, List.eq_nil_of_length_eq_zero h1]
    · have hHpos : 0 < H := by
        rcases Nat.eq_zero_or_pos H with h0 | h
        · subst h0; simp at hWH
        · exact h
      have hWpos : 0 < W := by
        rcases Nat.eq_zero_or_pos W with h0 | h
        · subst h0; simp at hWH
        · exact h
      apply List.ext_getElem?
      intro j
      by_cases hj : j < W * H
      · have hjW : j / W < H := (Nat.div_lt_iff_lt_mul hWpos).mpr
          (by rw [Nat.mul_comm]; exact hj)
        have hjm : j % W < W := Nat.mod_lt _ hWpos
        have hidxlt : (j % W) * H + j / W < W * H := by
          rw [Nat.add_comm, Nat.mul_comm W H]
          exact coord_index_lt hjW hjm
        rw [paintRecs_spec hHpos (exportCellList img) _ 0 rfl rfl
          (Init_length_natCast W H) (by rw [Nat.zero_add, hcs]) j hj]
        rw [if_pos ⟨Nat.zero_le _, by rw [hcs, Nat.zero_add]; exact hidxlt⟩,
          Nat.sub_zero]
        rw [exportCellList_getElem hW hH hlen hidxlt]
        have hj2 : j = ((j % W) * H + j / W) / H + (((j % W) * H + j / W) % H) * W :=
          (idx_eq_iff hHpos hWpos hidxlt hj).mp rfl
        rw [← hj2]
      · rw [List.getElem?_eq_none
            (by rw [paintRecs_length, Init_length_natCast]; omega),
          List.getElem?_eq_none (by rw [hlen]; omega)]

/-- C1 (amended): for every image whose dimensions are non-negative, fit in
`uint32`, and satisfy `len(Cells) = Width*Height` (cell fields within their
Go machine ranges, as Go's types guarantee), decoding the byte stream produced
by encoding the image yields an image equal to it cell-for-cell, with the same
`Width` and `Height`. -/
theorem import_export_roundtrip (img : ImageData) (W H : Nat)
    (hW : img.Width = (W : Int)) (hH : img.Height = (H : Int))
    (hWlt : W < 4294967296) (hHlt : H < 4294967296)
    (hlen : img.Cells.length = W * H)
    (hwf : ∀ c ∈ img.Cells, WFCell c) :
    importBytes (exportBytes img) = .ok img := by
  have hcs : (exportCellList img).length = W * H := exportCellList_length hW hH
  have hglyph := exportCellList_glyph_lt hwf
  have hstream : exportBytes img =
      u32Bytes 4294967295 ++ (u32Bytes 1 ++ (u32Bytes W ++ (u32Bytes H ++
        (exportCellList img).flatMap cellBytes))) := by
    unfold exportBytes
    rw [hW, hH]
    have h1 : int32Bytes (-1) = u32Bytes 4294967295 := rfl
    have h2 : (((W : Int)) % 4294967296).toNat = W := by omega
    have h3 : (((H : Int)) % 4294967296).toNat = H := by omega
    rw [h1, h2, h3, List.append_assoc, List.append_assoc, List.append_assoc]
  unfold importBytes
  rw [hstream, readU32_u32Bytes 4294967295 (by norm_num) _]
  dsimp only
  rw [readU32_u32Bytes 1 (by norm_num) _]
  dsimp only
  rw [readU32_u32Bytes W hWlt _]
  dsimp only
  rw [readU32_u32Bytes H hHlt _]
  dsimp only
  rw [importLayers_single]
  have hfuel : ((ImageData.Init (W : Int) (H : Int)).Width *
      (ImageData.Init (W : Int) (H : Int)).Height).toNat = W * H := by
    show (((W : Int)) * ((H : Int))).toNat = W * H
    omega
  rw [hfuel, readLayerCells_eq_readNCells]
  have hread : readNCells (W * H) ((exportCellList img).flatMap cellBytes) =
      some (exportCellList img, []) := by
    have := readNCells_flatMap (exportCellList img) hglyph []
    rwa [List.append_nil, hcs] at this
  rw [hread]
  dsimp only
  rw [roundtrip_paint_eq hW hH hlen]

/-- C5 as claimed is false: with a zero background-alpha byte,
`SetColoursARGB` leaves the foreground channels unchanged rather than forcing
them to black.  A cell with foreground (7,7,7) keeps it after
`SetColoursARGB 0 0x00112233`. -/
theorem setColoursARGB_fg_not_blackened :
    ¬(((⟨0, 7, 7, 7, 1, 2, 3⟩ : CellData).SetColoursARGB 0 1122867).R_f = 0 ∧
      ((⟨0, 7, 7, 7, 1, 2, 3⟩ : CellData).SetColoursARGB 0 1122867).G_f = 0 ∧
      ((⟨0, 7, 7, 7, 1, 2, 3⟩ : CellData).SetColoursARGB 0 1122867).B_f = 0) := by
  decide

/-- C5 (amended): `SetColoursARGB(fg, bg)` with the top (alpha) byte of `bg`
zero sets the background to the undrawn sentinel (255, 0, 255) and leaves the
foreground channels unchanged (it does not unpack `bg`); with a nonzero alpha
byte both colours are unpacked from ARGB byte order.  `SetColoursRGBA` obeys
the same rule with the opacity byte taken as the low byte of `bg`. -/
theorem setColours_alpha_spec (cd : CellData) (fore back : Nat)
    (hb : back < 4294967296) :
    ((back / 16777216 = 0 →
        cd.SetColoursARGB fore back = { cd with R_b := 255, G_b := 0, B_b := 255 }) ∧
      (back / 16777216 ≠ 0 →
        cd.SetColoursARGB fore back =
          { cd with
            R_f := fore / 65536 % 256, G_f := fore / 256 % 256, B_f := fore % 256,
            R_b := back / 65536 % 256, G_b := back / 256 % 256, B_b := back % 256 })) ∧
    ((back % 256 = 0 →
        cd.SetColoursRGBA fore back = { cd with R_b := 255, G_b := 0, B_b := 255 }) ∧
      (back % 256 ≠ 0 →
        cd.SetColoursRGBA fore back =
          { cd with
            R_f := fore / 16777216 % 256, G_f := fore / 65536 % 256, B_f := fore / 256 % 256,
            R_b := back / 16777216 % 256, G_b := back / 65536 % 256, B_b := back / 256 % 256 })) := by
  have htop : back / 16777216 % 256 = back / 16777216 :=
    Nat.mod_eq_of_lt (by omega)
  refine ⟨⟨fun h => ?_, fun h => ?_⟩, ⟨fun h => ?_, fun h => ?_⟩⟩
  · unfold CellData.SetColoursARGB
    rw [if_pos (htop.trans h)]
  · unfold CellData.SetColoursARGB
    rw [if_neg (fun hc => h (htop.symm.trans hc))]
  · unfold CellData.SetColoursRGBA
    rw [if_pos h]
  · unfold CellData.SetColoursRGBA
    rw [if_neg h]

theorem setColours_alpha_spec_witness :
    (⟨0, 7, 7, 7, 1, 2, 3⟩ : CellData).SetColoursARGB 305419896 1122867 =
      ⟨0, 7, 7, 7, 255, 0, 255⟩ :=
  (setColours_alpha_spec ⟨0, 7, 7, 7, 1, 2, 3⟩ 305419896 1122867
    (by norm_num)).1.1 (by norm_num)

/-- C7 as claimed is false: the `RGBA()` background of a cleared cell is
0xFF00FFFF (R=255, G=0, B=255, A=255 packed RRGGBBAA), not 0xFF0000FF. -/
theorem clear_rgba_not_FF0000FF :
    ¬(((CellData.zero.clear).RGBA).2 = 0xFF0000FF) := by
  decide

/-- C7 (amended): after `Clear()` on any cell, the cell has glyph 0,
foreground (0,0,0), background (255,0,255), `Undrawn()` returns true, and the
background value returned by `RGBA()` equals 0xFF00FFFF (the RRGGBBAA packing
of R=255, G=0, B=255 with alpha 0xFF). -/
theorem clear_spec (cd : CellData) :
    (cd.clear).Glyph = 0 ∧
    (cd.clear).R_f = 0 ∧ (cd.clear).G_f = 0 ∧ (cd.clear).B_f = 0 ∧
    (cd.clear).R_b = 255 ∧ (cd.clear).G_b = 0 ∧ (cd.clear).B_b = 255 ∧
    (cd.clear).Undrawn = true ∧
    ((cd.clear).RGBA).2 = 0xFF00FFFF := by
  unfold CellData.clear CellData.cleared CellData.Undrawn CellData.RGBA
  norm_num

/-- C8: encoding a 1×1 image whose single cell has glyph 88, foreground
(255,255,255) and background (0,0,0) produces exactly the little-endian bytes
of version -1, layer count 1, width 1, height 1, then the 10-byte record:
glyph 88 as uint32 followed by 255,255,255,0,0,0, with no padding. -/
theorem export_1x1_bytes :
    exportBytes ⟨1, 1, [⟨88, 255, 255, 255, 0, 0, 0⟩]⟩ =
      [255, 255, 255, 255, 1, 0, 0, 0, 1, 0, 0, 0, 1, 0, 0, 0,
       88, 0, 0, 0, 255, 255, 255, 0, 0, 0] := by
  decide

/-- C10: for every path not ending in ".xp", `Export` does not fail on the
extension but appends ".xp" and proceeds, while `Import` rejects the path
with an error before opening the file; the suffix test is a case-sensitive
exact match, so "a.XP" is rejected while "a.xp" passes. -/
theorem path_extension_spec (path : List Char) (h : hasXpSuffix path = false) :
    exportPath path = path ++ ['.', 'x', 'p'] ∧
    importGate path = .error "File is not an XP image." ∧
    hasXpSuffix ['a', '.', 'X', 'P'] = false ∧
    hasXpSuffix ['a', '.', 'x', 'p'] = true := by
  refine ⟨?_, ?_, by decide, by decide⟩
  · unfold exportPath
    rw [if_neg (by rw [h]; exact Bool.false_ne_true)]
  · unfold importGate
    rw [if_neg (by rw [h]; exact Bool.false_ne_true)]

theorem path_extension_spec_witness :
    exportPath ['f', 'o', 'o'] = ['f', 'o', 'o', '.', 'x', 'p'] ∧
    importGate ['f', 'o', 'o'] = .error "File is not an XP image." ∧
    hasXpSuffix ['a', '.', 'X', 'P'] = false ∧
    hasXpSuffix ['a', '.', 'x', 'p'] = true :=
  path_extension_spec ['f', 'o', 'o'] (by decide)

theorem import_export_roundtrip_witness :
    importBytes (exportBytes
        ⟨2, 3, [⟨1, 0, 0, 0, 0, 0, 0⟩, ⟨2, 0, 0, 0, 0, 0, 0⟩, ⟨3, 0, 0, 0, 0, 0, 0⟩,
                ⟨4, 0, 0, 0, 0, 0, 0⟩, ⟨5, 0, 0, 0, 0, 0, 0⟩, ⟨6, 0, 0, 0, 0, 0, 0⟩]⟩) =
      .ok ⟨2, 3, [⟨1, 0, 0, 0, 0, 0, 0⟩, ⟨2, 0, 0, 0, 0, 0, 0⟩, ⟨3, 0, 0, 0, 0, 0, 0⟩,
                  ⟨4, 0, 0, 0, 0, 0, 0⟩, ⟨5, 0, 0, 0, 0, 0, 0⟩, ⟨6, 0, 0, 0, 0, 0, 0⟩]⟩ :=
  import_export_roundtrip _ 2 3 (by decide) (by decide) (by norm_num) (by norm_num)
    (by decide) (by decide)

/-- C1 as claimed is false: the image with `Width = 2^32`, `Height = 0` and no
cells satisfies the claim's stated preconditions (`Width ≥ 0`, `Height ≥ 0`,
`len(Cells) = Width*Height`), but `Export` narrows the width to `uint32`,
writing a zero width, so decoding the encoded stream yields a 0×0 image, not
the original. -/
theorem import_export_roundtrip_cex :
    (0 : Int) ≤ (⟨4294967296, 0, []⟩ : ImageData).Width ∧
    (0 : Int) ≤ (⟨4294967296, 0, []⟩ : ImageData).Height ∧
    (((⟨4294967296, 0, []⟩ : ImageData).Cells.length : Int) =
      (⟨4294967296, 0, []⟩ : ImageData).Width * (⟨4294967296, 0, []⟩ : ImageData).Height) ∧
    importBytes (exportBytes (⟨4294967296, 0, []⟩ : ImageData)) ≠
      .ok (⟨4294967296, 0, []⟩ : ImageData) := by
  refine ⟨by norm_num, le_refl 0, by norm_num, ?_⟩
  have hcl : exportCellList (⟨4294967296, 0, []⟩ : ImageData) = [] := by
    apply List.eq_nil_of_length_eq_zero
    have h := exportCellList_length (W := 4294967296) (H := 0)
      (show (⟨4294967296, 0, []⟩ : ImageData).Width = ((4294967296 : Nat) : Int)
        by norm_num)
      (show (⟨4294967296, 0, []⟩ : ImageData).Height = ((0 : Nat) : Int) by norm_num)
    rw [h]
  have hexp : exportBytes (⟨4294967296, 0, []⟩ : ImageData) =
      [255, 255, 255, 255, 1, 0, 0, 0, 0, 0, 0, 0, 0, 0, 0, 0] := by
    unfold exportBytes
    rw [hcl]
    decide
  rw [hexp]
  decide

/-- C2: on decode, the k-th stored cell record of a layer of width `w` and
height `h` is placed at coordinate `(k / h, k % h)` (row-major cell slot
`k/h + (k%h)*w`); on encode the cells are emitted with `x` in the outer loop
and `y` in the inner loop, so the k-th emitted record is the cell at
`(k / h, k % h)`; and the concrete single-layer stream with width 2, height 3
and six distinct glyphs 10..15 decodes glyph `10+k` to coordinate
`(k / 3, k % 3)`. -/
theorem column_major_mapping :
    (∀ (img : ImageData) (W H k : Nat),
      img.Width = (W : Int) → img.Height = (H : Int) →
      img.Cells.length = W * H → k < W * H →
      (exportCellList img)[k]? = img.Cells[k / H + (k % H) * W]?) ∧
    (∀ (img0 : ImageData) (W H k : Nat) (recs : List CellData),
      img0.Width = (W : Int) → img0.Height = (H : Int) →
      img0.Cells.length = W * H → recs.length = W * H → k < W * H →
      (paintRecs img0 0 recs).Cells[k / H + (k % H) * W]? = recs[k]?) ∧
    (importBytes
        [0, 0, 0, 0, 1, 0, 0, 0, 2, 0, 0, 0, 3, 0, 0, 0,
         10, 0, 0, 0, 0, 0, 0, 0, 0, 0,
         11, 0, 0, 0, 0, 0, 0, 0, 0, 0,
         12, 0, 0, 0, 0, 0, 0, 0, 0, 0,
         13, 0, 0, 0, 0, 0, 0, 0, 0, 0,
         14, 0, 0, 0, 0, 0, 0, 0, 0, 0,
         15, 0, 0, 0, 0, 0, 0, 0, 0, 0] =
      .ok ⟨2, 3, [⟨10, 0, 0, 0, 0, 0, 0⟩, ⟨13, 0, 0, 0, 0, 0, 0⟩,
                  ⟨11, 0, 0, 0, 0, 0, 0⟩, ⟨14, 0, 0, 0, 0, 0, 0⟩,
                  ⟨12, 0, 0, 0, 0, 0, 0⟩, ⟨15, 0, 0, 0, 0, 0, 0⟩]⟩) ∧
    (∀ k, k < 6 →
      (⟨2, 3, [⟨10, 0, 0, 0, 0, 0, 0⟩, ⟨13, 0, 0, 0, 0, 0, 0⟩,
               ⟨11, 0, 0, 0, 0, 0, 0⟩, ⟨14, 0, 0, 0, 0, 0, 0⟩,
               ⟨12, 0, 0, 0, 0, 0, 0⟩, ⟨15, 0, 0, 0, 0, 0, 0⟩]⟩ :
          ImageData).Cells[k / 3 + (k % 3) * 2]? =
        some ⟨10 + k, 0, 0, 0, 0, 0, 0⟩) := by
  refine ⟨?_, ?_, by decide, by decide⟩
  · intro img W H k hW hH hlen hk
    exact exportCellList_getElem hW hH hlen hk
  · intro img0 W H k recs hW hH hlen hrlen hk
    have hHpos : 0 < H := by
      rcases Nat.eq_zero_or_pos H with h0 | h
      · subst h0; simp at hk
      · exact h
    have hWpos : 0 < W := by
      rcases Nat.eq_zero_or_pos W with h0 | h
      · subst h0; simp at hk
      · exact h
    have hdiv : k / H < W := (Nat.div_lt_iff_lt_mul hHpos).mpr hk
    have hmod : k % H < H := Nat.mod_lt _ hHpos
    have hj : k / H + (k % H) * W < W * H := coord_index_lt hdiv hmod
    rw [paintRecs_spec hHpos recs img0 0 hW hH hlen (by omega) _ hj]
    have hidx : ((k / H + (k % H) * W) % W) * H + (k / H + (k % H) * W) / W = k :=
      (idx_eq_iff hHpos hWpos hk hj).mpr rfl
    rw [hidx, if_pos ⟨Nat.zero_le _, by omega⟩, Nat.sub_zero]

theorem column_major_mapping_witness :
    ((exportCellList ⟨2, 3, [⟨1, 0, 0, 0, 0, 0, 0⟩, ⟨2, 0, 0, 0, 0, 0, 0⟩,
        ⟨3, 0, 0, 0, 0, 0, 0⟩, ⟨4, 0, 0, 0, 0, 0, 0⟩, ⟨5, 0, 0, 0, 0, 0, 0⟩,
        ⟨6, 0, 0, 0, 0, 0, 0⟩]⟩)[4]? =
      (⟨2, 3, [⟨1, 0, 0, 0, 0, 0, 0⟩, ⟨2, 0, 0, 0, 0, 0, 0⟩, ⟨3, 0, 0, 0, 0, 0, 0⟩,
        ⟨4, 0, 0, 0, 0, 0, 0⟩, ⟨5, 0, 0, 0, 0, 0, 0⟩, ⟨6, 0, 0, 0, 0, 0, 0⟩]⟩ :
          ImageData).Cells[4 / 3 + (4 % 3) * 2]?) ∧
    (paintRecs (ImageData.Init 2 3) 0 [⟨1, 0, 0, 0, 0, 0, 0⟩, ⟨2, 0, 0, 0, 0, 0, 0⟩,
        ⟨3, 0, 0, 0, 0, 0, 0⟩, ⟨4, 0, 0, 0, 0, 0, 0⟩, ⟨5, 0, 0, 0, 0, 0, 0⟩,
        ⟨6, 0, 0, 0, 0, 0, 0⟩]).Cells[4 / 3 + (4 % 3) * 2]? =
      some ⟨5, 0, 0, 0, 0, 0, 0⟩ :=
  ⟨column_major_mapping.1 _ 2 3 4 (by decide) (by decide) (by decide) (by decide),
   column_major_mapping.2.1 (ImageData.Init 2 3) 2 3 4 _ (by decide) (by decide)
     (by decide) (by decide) (by decide)⟩

theorem idx_lt {W H j : Nat} (hW : 0 < W) (hH : 0 < H) (hj : j < W * H) :
    (j % W) * H + j / W < W * H := by
  have hjW : j / W < H := (Nat.div_lt_iff_lt_mul hW).mpr (by rw [Nat.mul_comm]; exact hj)
  have hjm : j % W < W := Nat.mod_lt _ hW
  rw [Nat.add_comm, Nat.mul_comm W H]
  exact coord_index_lt hjW hjm

theorem paintRecs_full_eq {W H : Nat} {img1 img2 : ImageData} (recs : List CellData)
    (h1W : img1.Width = (W : Int)) (h1H : img1.Height = (H : Int))
    (h1len : img1.Cells.length = W * H)
    (h2W : img2.Width = (W : Int)) (h2H : img2.Height = (H : Int))
    (h2len : img2.Cells.length = W * H)
    (hrlen : recs.length = W * H) :
    paintRecs img1 0 recs = paintRecs img2 0 recs := by
  rcases Nat.eq_zero_or_pos (W * H) with h0 | hpos
  · obtain rfl : recs = [] := List.eq_nil_of_length_eq_zero (by omega)
    show img1 = img2
    apply imageData_eq_of_components
    · rw [h1W, h2W]
    · rw [h1H, h2H]
    · rw [List.eq_nil_of_length_eq_zero (by omega : img1.Cells.length = 0),
        List.eq_nil_of_length_eq_zero (by omega : img2.Cells.length = 0)]
  · have hHpos : 0 < H := by
      rcases Nat.eq_zero_or_pos H with h0 | h
      · subst h0; simp at hpos
      · exact h
    have hWpos : 0 < W := by
      rcases Nat.eq_zero_or_pos W with h0 | h
      · subst h0; simp at hpos
      · exact h
    apply imageData_eq_of_components
    · rw [paintRecs_Width, paintRecs_Width, h1W, h2W]
    · rw [paintRecs_Height, paintRecs_Height, h1H, h2H]
    · apply List.ext_getElem?
      intro j
      by_cases hj : j < W * H
      · rw [paintRecs_spec hHpos recs img1 0 h1W h1H h1len (by omega) j hj,
          paintRecs_spec hHpos recs img2 0 h2W h2H h2len (by omega) j hj]
        have hlt := idx_lt hWpos hHpos hj
        rw [if_pos ⟨Nat.zero_le _, by omega⟩, if_pos ⟨Nat.zero_le _, by omega⟩]
      · rw [List.getElem?_eq_none (by rw [paintRecs_length]; omega),
          List.getElem?_eq_none (by rw [paintRecs_length]; omega)]

theorem importLayers_second (img : ImageData) (bs : List Nat) :
    importLayers img 1 1 bs =
      match readU32 bs with
      | some (_w2, bs1) =>
        match readU32 bs1 with
        | some (_h2, bs2) =>
          match readLayerCells img 0 (img.Width * img.Height).toNat bs2 with
          | some (img2, bs3) => some (img2, bs3)
          | none => none
        | none => none
      | none => none := by
  show (match readU32 bs with
    | some (_w2, bs1) =>
      match readU32 bs1 with
      | some (_h2, bs2) =>
        match readLayerCells img 0 (img.Width * img.Height).toNat bs2 with
        | some (img2, bs3) => importLayers img2 (1 + 1) 0 bs3
        | none => none
      | none => none
    | none => none) = _
  cases h1 : readU32 bs with
  | none => rfl
  | some p1 =>
    obtain ⟨w2, bs1⟩ := p1
    dsimp only
    cases h2 : readU32 bs1 with
    | none => rfl
    | some p2 =>
      obtain ⟨h2v, bs2⟩ := p2
      dsimp only
      cases h3 : readLayerCells img 0 (img.Width * img.Height).toNat bs2 with
      | none => rfl
      | some p3 =>
        obtain ⟨img2, bs3⟩ := p3
        rfl

theorem importLayers_double (img : ImageData) (bs : List Nat) :
    importLayers img 0 2 bs =
      match readLayerCells img 0 (img.Width * img.Height).toNat bs with
      | some (img2, bs2) => importLayers img2 1 1 bs2
      | none => none := by
  show (match readLayerCells img 0 (img.Width * img.Height).toNat bs with
    | some (img2, bs2) => importLayers img2 (0 + 1) 1 bs2
    | none => none) = _
  cases hr : readLayerCells img 0 (img.Width * img.Height).toNat bs with
  | none => rfl
  | some p =>
    obtain ⟨i2, b2⟩ := p
    rfl

/-- C3: decoding a two-layer stream reads the layers in ascending stored
order and each cell of the later layer unconditionally overwrites the earlier
value at the same coordinate — including cells whose background is the
undrawn sentinel (no condition on the record contents appears anywhere) — so
a 2-layer stream whose second layer covers every cell decodes to the same
image as the stream containing the second layer alone. -/
theorem two_layer_paint_over (v W H d1 d2 : Nat) (r1 r2 : List CellData)
    (hv : v < 4294967296) (hWlt : W < 4294967296) (hHlt : H < 4294967296)
    (hd1 : d1 < 4294967296) (hd2 : d2 < 4294967296)
    (hr1len : r1.length = W * H) (hr2len : r2.length = W * H)
    (hg1 : ∀ c ∈ r1, c.Glyph < 4294967296) (hg2 : ∀ c ∈ r2, c.Glyph < 4294967296) :
    importBytes (u32Bytes v ++ u32Bytes 2 ++ u32Bytes W ++ u32Bytes H ++
        r1.flatMap cellBytes ++ u32Bytes d1 ++ u32Bytes d2 ++ r2.flatMap cellBytes) =
      importBytes (u32Bytes v ++ u32Bytes 1 ++ u32Bytes W ++ u32Bytes H ++
        r2.flatMap cellBytes) := by
  have hfuel : ((ImageData.Init (W : Int) (H : Int)).Width *
      (ImageData.Init (W : Int) (H : Int)).Height).toNat = W * H := by
    show (((W : Int)) * ((H : Int))).toNat = W * H
    omega
  have hread2 : readNCells (W * H) (r2.flatMap cellBytes) = some (r2, []) := by
    have := readNCells_flatMap r2 hg2 []
    rwa [List.append_nil, hr2len] at this
  have hRHS : importBytes (u32Bytes v ++ u32Bytes 1 ++ u32Bytes W ++ u32Bytes H ++
      r2.flatMap cellBytes) = .ok (paintRecs (ImageData.Init (W : Int) (H : Int)) 0 r2) := by
    rw [show u32Bytes v ++ u32Bytes 1 ++ u32Bytes W ++ u32Bytes H ++ r2.flatMap cellBytes =
      u32Bytes v ++ (u32Bytes 1 ++ (u32Bytes W ++ (u32Bytes H ++ r2.flatMap cellBytes)))
      by simp only [List.append_assoc]]
    unfold importBytes
    rw [readU32_u32Bytes v hv]
    dsimp only
    rw [readU32_u32Bytes 1 (by norm_num)]
    dsimp only
    rw [readU32_u32Bytes W hWlt]
    dsimp only
    rw [readU32_u32Bytes H hHlt]
    dsimp only
    rw [importLayers_single, hfuel, readLayerCells_eq_readNCells, hread2]
  have hread1 : readNCells (W * H) (r1.flatMap cellBytes ++
      (u32Bytes d1 ++ (u32Bytes d2 ++ r2.flatMap cellBytes))) =
      some (r1, u32Bytes d1 ++ (u32Bytes d2 ++ r2.flatMap cellBytes)) := by
    have := readNCells_flatMap r1 hg1 (u32Bytes d1 ++ (u32Bytes d2 ++ r2.flatMap cellBytes))
    rwa [hr1len] at this
  have hfuel1 : ((paintRecs (ImageData.Init (W : Int) (H : Int)) 0 r1).Width *
      (paintRecs (ImageData.Init (W : Int) (H : Int)) 0 r1).Height).toNat = W * H := by
    rw [paintRecs_Width, paintRecs_Height]
    exact hfuel
  have hLHS : importBytes (u32Bytes v ++ u32Bytes 2 ++ u32Bytes W ++ u32Bytes H ++
      r1.flatMap cellBytes ++ u32Bytes d1 ++ u32Bytes d2 ++ r2.flatMap cellBytes) =
      .ok (paintRecs (paintRecs (ImageData.Init (W : Int) (H : Int)) 0 r1) 0 r2) := by
    rw [show u32Bytes v ++ u32Bytes 2 ++ u32Bytes W ++ u32Bytes H ++
        r1.flatMap cellBytes ++ u32Bytes d1 ++ u32Bytes d2 ++ r2.flatMap cellBytes =
      u32Bytes v ++ (u32Bytes 2 ++ (u32Bytes W ++ (u32Bytes H ++ (r1.flatMap cellBytes ++
        (u32Bytes d1 ++ (u32Bytes d2 ++ r2.flatMap cellBytes))))))
      by simp only [List.append_assoc]]
    unfold importBytes
    rw [readU32_u32Bytes v hv]
    dsimp only
    rw [readU32_u32Bytes 2 (by norm_num)]
    dsimp only
    rw [readU32_u32Bytes W hWlt]
    dsimp only
    rw [readU32_u32Bytes H hHlt]
    dsimp only
    rw [importLayers_double, hfuel, readLayerCells_eq_readNCells, hread1]
    dsimp only
    rw [importLayers_second, readU32_u32Bytes d1 hd1]
    dsimp only
    rw [readU32_u32Bytes d2 hd2]
    dsimp only
    rw [hfuel1, readLayerCells_eq_readNCells, hread2]
  rw [hLHS, hRHS]
  congr 1
  exact paintRecs_full_eq r2
    (by rw [paintRecs_Width]; rfl) (by rw [paintRecs_Height]; rfl)
    (by rw [paintRecs_length]; exact Init_length_natCast W H)
    rfl rfl (Init_length_natCast W H) hr2len

theorem two_layer_paint_over_witness :
    importBytes (u32Bytes 0 ++ u32Bytes 2 ++ u32Bytes 1 ++ u32Bytes 1 ++
        [⟨7, 1, 1, 1, 9, 9, 9⟩].flatMap cellBytes ++ u32Bytes 1 ++ u32Bytes 1 ++
        [⟨8, 2, 2, 2, 255, 0, 255⟩].flatMap cellBytes) =
      importBytes (u32Bytes 0 ++ u32Bytes 1 ++ u32Bytes 1 ++ u32Bytes 1 ++
        [⟨8, 2, 2, 2, 255, 0, 255⟩].flatMap cellBytes) :=
  two_layer_paint_over 0 1 1 1 1 [⟨7, 1, 1, 1, 9, 9, 9⟩] [⟨8, 2, 2, 2, 255, 0, 255⟩]
    (by norm_num) (by norm_num) (by norm_num) (by norm_num) (by norm_num)
    (by decide) (by decide) (by decide) (by decide)

theorem u32Bytes_length (v : Nat) : (u32Bytes v).length = 4 := rfl

theorem exportBytes_decomp {img : ImageData} {W H : Nat}
    (hW : img.Width = (W : Int)) (hH : img.Height = (H : Int))
    (hWlt : W < 4294967296) (hHlt : H < 4294967296) :
    exportBytes img =
      u32Bytes 4294967295 ++ (u32Bytes 1 ++ (u32Bytes W ++ (u32Bytes H ++
        (exportCellList img).flatMap cellBytes))) := by
  unfold exportBytes
  rw [hW, hH]
  have h1 : int32Bytes (-1) = u32Bytes 4294967295 := rfl
  have h2 : (((W : Int)) % 4294967296).toNat = W := by omega
  have h3 : (((H : Int)) % 4294967296).toNat = H := by omega
  rw [h1, h2, h3, List.append_assoc, List.append_assoc, List.append_assoc]

theorem exportBytes_length {img : ImageData} {W H : Nat}
    (hW : img.Width = (W : Int)) (hH : img.Height = (H : Int))
    (hWlt : W < 4294967296) (hHlt : H < 4294967296) :
    (exportBytes img).length = 16 + 10 * (W * H) := by
  rw [exportBytes_decomp hW hH hWlt hHlt]
  simp only [List.length_append, u32Bytes_length, flatMap_cellBytes_length,
    exportCellList_length hW hH]
  omega

theorem readU32_short {bs : List Nat} (h : bs.length < 4) : readU32 bs = none := by
  rcases bs with _ | ⟨b0, _ | ⟨b1, _ | ⟨b2, _ | ⟨b3, t⟩⟩⟩⟩
  · rfl
  · rfl
  · rfl
  · rfl
  · exfalso
    simp only [List.length_cons] at h
    omega

theorem importBytes_short {bs : List Nat} (h : bs.length < 16) :
    importBytes bs = .error "read failed" := by
  unfold importBytes
  cases h1 : readU32 bs with
  | none => rfl
  | some p1 =>
    obtain ⟨v, bs1⟩ := p1
    have l1 := readU32_length h1
    dsimp only
    cases h2 : readU32 bs1 with
    | none => rfl
    | some p2 =>
      obtain ⟨nl, bs2⟩ := p2
      have l2 := readU32_length h2
      dsimp only
      cases h3 : readU32 bs2 with
      | none => rfl
      | some p3 =>
        obtain ⟨w, bs3⟩ := p3
        have l3 := readU32_length h3
        dsimp only
        cases h4 : readU32 bs3 with
        | none => rfl
        | some p4 => exact absurd (readU32_length h4) (by omega)

/-- C4: a successful decode always returns a full grid (the cell list's
length is `Width*Height`, never a half-populated image); truncating the byte
stream of any encoded image at any point — inside the header or a cell
record — makes the whole decode abort with an error; and a two-layer stream
cut short inside the second layer's dimension fields likewise aborts with an
error. -/
theorem import_abort_on_truncation :
    (∀ (bs : List Nat) (img : ImageData), importBytes bs = .ok img →
      (img.Cells.length : Int) = img.Width * img.Height) ∧
    (∀ (img : ImageData) (W H : Nat),
      img.Width = (W : Int) → img.Height = (H : Int) →
      W < 4294967296 → H < 4294967296 → img.Cells.length = W * H →
      ∀ n, n < (exportBytes img).length →
        importBytes ((exportBytes img).take n) = .error "read failed") ∧
    (∀ (v W H : Nat) (r1 : List CellData) (tail : List Nat),
      v < 4294967296 → W < 4294967296 → H < 4294967296 →
      r1.length = W * H → (∀ c ∈ r1, c.Glyph < 4294967296) →
      tail.length < 8 →
      importBytes (u32Bytes v ++ u32Bytes 2 ++ u32Bytes W ++ u32Bytes H ++
        r1.flatMap cellBytes ++ tail) = .error "read failed") := by
  refine ⟨?_, ?_, ?_⟩
  · intro bs img h
    obtain ⟨w, h2, hW, hH, hlen⟩ := importBytes_ok_dims h
    rw [hW, hH, hlen]
    push_cast
    ring
  · intro img W H hW hH hWlt hHlt hlen n hn
    have hlstream := exportBytes_length hW hH hWlt hHlt
    rw [hlstream] at hn
    by_cases hn16 : n < 16
    · apply importBytes_short
      rw [List.length_take]
      omega
    · push_neg at hn16
      have htake : (exportBytes img).take n =
          u32Bytes 4294967295 ++ (u32Bytes 1 ++ (u32Bytes W ++ (u32Bytes H ++
            ((exportCellList img).flatMap cellBytes).take (n - 16)))) := by
        have hd : exportBytes img =
            (u32Bytes 4294967295 ++ u32Bytes 1 ++ u32Bytes W ++ u32Bytes H) ++
              (exportCellList img).flatMap cellBytes := by
          rw [exportBytes_decomp hW hH hWlt hHlt]
          simp only [List.append_assoc]
        have hhdr : (u32Bytes 4294967295 ++ u32Bytes 1 ++ u32Bytes W ++
            u32Bytes H).length = 16 := by
          simp [u32Bytes_length]
        rw [hd, List.take_append_eq_append_take,
          List.take_of_length_le (by rw [hhdr]; omega), hhdr]
        simp only [List.append_assoc]
      rw [htake]
      unfold importBytes
      rw [readU32_u32Bytes 4294967295 (by norm_num)]
      dsimp only
      rw [readU32_u32Bytes 1 (by norm_num)]
      dsimp only
      rw [readU32_u32Bytes W hWlt]
      dsimp only
      rw [readU32_u32Bytes H hHlt]
      dsimp only
      rw [importLayers_single,
        show ((ImageData.Init (W : Int) (H : Int)).Width *
          (ImageData.Init (W : Int) (H : Int)).Height).toNat = W * H from by
            show (((W : Int)) * ((H : Int))).toNat = W * H
            omega,
        readLayerCells_eq_readNCells]
      have hnone : readNCells (W * H)
          (((exportCellList img).flatMap cellBytes).take (n - 16)) = none := by
        apply readNCells_short
        rw [List.length_take, flatMap_cellBytes_length, exportCellList_length hW hH]
        omega
      rw [hnone]
  · intro v W H r1 tail hv hWlt hHlt hr1 hg1 htail
    rw [show u32Bytes v ++ u32Bytes 2 ++ u32Bytes W ++ u32Bytes H ++
        r1.flatMap cellBytes ++ tail =
      u32Bytes v ++ (u32Bytes 2 ++ (u32Bytes W ++ (u32Bytes H ++
        (r1.flatMap cellBytes ++ tail)))) from by simp only [List.append_assoc]]
    unfold importBytes
    rw [readU32_u32Bytes v hv]
    dsimp only
    rw [readU32_u32Bytes 2 (by norm_num)]
    dsimp only
    rw [readU32_u32Bytes W hWlt]
    dsimp only
    rw [readU32_u32Bytes H hHlt]
    dsimp only
    rw [importLayers_double,
      show ((ImageData.Init (W : Int) (H : Int)).Width *
        (ImageData.Init (W : Int) (H : Int)).Height).toNat = W * H from by
          show (((W : Int)) * ((H : Int))).toNat = W * H
          omega,
      readLayerCells_eq_readNCells]
    have hr : readNCells (W * H) (r1.flatMap cellBytes ++ tail) = some (r1, tail) := by
      have := readNCells_flatMap r1 hg1 tail
      rwa [hr1] at this
    rw [hr]
    dsimp only
    rw [importLayers_second]
    cases h1 : readU32 tail with
    | none => rfl
    | some p =>
      obtain ⟨d1v, rest⟩ := p
      dsimp only
      have hl1 := readU32_length h1
      rw [readU32_short (by omega : rest.length < 4)]

theorem import_abort_on_truncation_witness :
    ((importBytes [255, 255, 255, 255, 0, 0, 0, 0, 0, 0, 0, 0, 0, 0, 0, 0] =
        .ok (ImageData.mk 0 0 []) →
      ((ImageData.mk 0 0 [] : ImageData).Cells.length : Int) =
        (ImageData.mk 0 0 [] : ImageData).Width * (ImageData.mk 0 0 [] : ImageData).Height)) ∧
    importBytes ((exportBytes (⟨1, 1, [CellData.cleared]⟩ : ImageData)).take 20) =
      .error "read failed" ∧
    importBytes (u32Bytes 0 ++ u32Bytes 2 ++ u32Bytes 1 ++ u32Bytes 1 ++
      [CellData.cleared].flatMap cellBytes ++ [0, 0, 0]) = .error "read failed" :=
  ⟨fun h => import_abort_on_truncation.1 _ _ h,
   import_abort_on_truncation.2.1 ⟨1, 1, [CellData.cleared]⟩ 1 1 (by decide) (by decide)
     (by norm_num) (by norm_num) (by decide) 20 (by decide),
   import_abort_on_truncation.2.2 0 1 1 [CellData.cleared] [0, 0, 0]
     (by norm_num) (by norm_num) (by norm_num) (by decide) (by decide) (by decide)⟩

theorem GetCell_err_len0 {id : ImageData} (x y : Int) (h : id.Cells.length = 0) :
    id.GetCell x y = .error "Image has no data." := by
  unfold ImageData.GetCell
  rw [if_pos h]

theorem GetCell_err_oob {id : ImageData} {x y : Int} (h0 : ¬id.Cells.length = 0)
    (h : x ≥ id.Width ∨ y ≥ id.Height ∨ x < 0 ∨ y < 0) :
    id.GetCell x y = .error "x, y coordinates out of bounds." := by
  unfold ImageData.GetCell
  rw [if_neg h0, if_pos h]

theorem GetCell_ok_of {id : ImageData} {x y : Int} {c : CellData}
    (h0 : ¬id.Cells.length = 0)
    (hb : ¬(x ≥ id.Width ∨ y ≥ id.Height ∨ x < 0 ∨ y < 0))
    (hc : id.Cells[(x + y * id.Width).toNat]? = some c) :
    id.GetCell x y = .ok c := by
  unfold ImageData.GetCell
  rw [if_neg h0, if_neg hb, hc]

theorem SetCell_err_oob {id : ImageData} {x y : Int} (cell : CellData)
    (h : x ≥ id.Width ∨ y ≥ id.Height ∨ x < 0 ∨ y < 0) :
    id.SetCell x y cell = .error "x, y coordinates out of bounds." := by
  unfold ImageData.SetCell
  rw [if_pos h]

theorem SetCell_ok_of {id : ImageData} {x y : Int} (cell : CellData)
    (hb : ¬(x ≥ id.Width ∨ y ≥ id.Height ∨ x < 0 ∨ y < 0))
    (hlt : (x + y * id.Width).toNat < id.Cells.length) :
    id.SetCell x y cell =
      .ok { id with Cells := id.Cells.set (x + y * id.Width).toNat cell } := by
  unfold ImageData.SetCell
  rw [if_neg hb, if_pos hlt]

theorem inbounds_index_lt {id : ImageData} {x y : Int}
    (hinv : (id.Cells.length : Int) = id.Width * id.Height)
    (hb : ¬(x ≥ id.Width ∨ y ≥ id.Height ∨ x < 0 ∨ y < 0)) :
    (x + y * id.Width).toNat < id.Cells.length := by
  push_neg at hb
  obtain ⟨hxW, hyH, hx0, hy0⟩ := hb
  have hW0 : 0 ≤ id.Width := le_trans hx0 (le_of_lt hxW)
  have hH0 : 0 ≤ id.Height := le_trans hy0 (le_of_lt hyH)
  have hxa : x = ((x.toNat : Nat) : Int) := (Int.toNat_of_nonneg hx0).symm
  have hyb : y = ((y.toNat : Nat) : Int) := (Int.toNat_of_nonneg hy0).symm
  have hWn : id.Width = ((id.Width.toNat : Nat) : Int) := (Int.toNat_of_nonneg hW0).symm
  have hHn : id.Height = ((id.Height.toNat : Nat) : Int) := (Int.toNat_of_nonneg hH0).symm
  have ha : x.toNat < id.Width.toNat := by omega
  have hbn : y.toNat < id.Height.toNat := by omega
  have hlen : id.Cells.length = id.Width.toNat * id.Height.toNat := by
    rw [hWn, hHn] at hinv
    exact_mod_cast hinv
  have hidx : (x + y * id.Width).toNat = x.toNat + y.toNat * id.Width.toNat := by
    conv_lhs => rw [hxa, hyb, hWn]
    omega
  rw [hidx, hlen]
  exact coord_index_lt ha hbn

/-- C6: under the image invariant `len(Cells) = Width*Height` (which the code
establishes for every image coming from `Init` or a successful import, and
which `SetCell` preserves), `GetCell(x,y)` returns an error exactly when
`x < 0`, `x ≥ Width`, `y < 0`, `y ≥ Height`, or the image has zero cells, and
otherwise returns a copy of the cell at row-major index `x + y*Width`;
`SetCell` returns an error under the same condition (the zero-cells case
included) and otherwise overwrites exactly the stored cell at `x + y*Width`;
and on an `Init(0,0)` image both fail for every coordinate. -/
theorem getCell_setCell_spec (id : ImageData) (x y : Int) (cell : CellData)
    (hinv : (id.Cells.length : Int) = id.Width * id.Height) :
    ((∃ e, id.GetCell x y = .error e) ↔
      (x < 0 ∨ x ≥ id.Width ∨ y < 0 ∨ y ≥ id.Height ∨ id.Cells.length = 0)) ∧
    (¬(x < 0 ∨ x ≥ id.Width ∨ y < 0 ∨ y ≥ id.Height ∨ id.Cells.length = 0) →
      ∃ c, id.Cells[(x + y * id.Width).toNat]? = some c ∧ id.GetCell x y = .ok c) ∧
    ((∃ e, id.SetCell x y cell = .error e) ↔
      (x < 0 ∨ x ≥ id.Width ∨ y < 0 ∨ y ≥ id.Height ∨ id.Cells.length = 0)) ∧
    (¬(x < 0 ∨ x ≥ id.Width ∨ y < 0 ∨ y ≥ id.Height ∨ id.Cells.length = 0) →
      id.SetCell x y cell =
        .ok { id with Cells := id.Cells.set (x + y * id.Width).toNat cell }) ∧
    (∀ a b : Int, (∃ e, (ImageData.Init 0 0).GetCell a b = .error e) ∧
      (∃ e, (ImageData.Init 0 0).SetCell a b cell = .error e)) := by
  refine ⟨⟨?_, ?_⟩, ?_, ⟨?_, ?_⟩, ?_, ?_⟩
  · rintro ⟨e, he⟩
    by_contra hnc
    push_neg at hnc
    obtain ⟨hx0, hxW, hy0, hyH, hl0⟩ := hnc
    have hb : ¬(x ≥ id.Width ∨ y ≥ id.Height ∨ x < 0 ∨ y < 0) := by omega
    obtain ⟨c, hc⟩ : ∃ c, id.Cells[(x + y * id.Width).toNat]? = some c :=
      ⟨_, List.getElem?_eq_getElem (inbounds_index_lt hinv hb)⟩
    rw [GetCell_ok_of hl0 hb hc] at he
    exact absurd he (by simp)
  · intro hc
    by_cases h0 : id.Cells.length = 0
    · exact ⟨_, GetCell_err_len0 x y h0⟩
    · have hb : x ≥ id.Width ∨ y ≥ id.Height ∨ x < 0 ∨ y < 0 := by
        rcases hc with h | h | h | h | h
        · omega
        · omega
        · omega
        · omega
        · exact absurd h h0
      exact ⟨_, GetCell_err_oob h0 hb⟩
  · intro hnc
    push_neg at hnc
    obtain ⟨hx0, hxW, hy0, hyH, hl0⟩ := hnc
    have hb : ¬(x ≥ id.Width ∨ y ≥ id.Height ∨ x < 0 ∨ y < 0) := by omega
    obtain ⟨c, hc⟩ : ∃ c, id.Cells[(x + y * id.Width).toNat]? = some c :=
      ⟨_, List.getElem?_eq_getElem (inbounds_index_lt hinv hb)⟩
    exact ⟨c, hc, GetCell_ok_of hl0 hb hc⟩
  · rintro ⟨e, he⟩
    by_contra hnc
    push_neg at hnc
    obtain ⟨hx0, hxW, hy0, hyH, hl0⟩ := hnc
    have hb : ¬(x ≥ id.Width ∨ y ≥ id.Height ∨ x < 0 ∨ y < 0) := by omega
    rw [SetCell_ok_of cell hb (inbounds_index_lt hinv hb)] at he
    exact absurd he (by simp)
  · intro hc
    have hb : x ≥ id.Width ∨ y ≥ id.Height ∨ x < 0 ∨ y < 0 := by
      rcases hc with h | h | h | h | h
      · omega
      · omega
      · omega
      · omega
      · have h' : id.Width * id.Height = 0 := by
          rw [← hinv, h]
          simp
        rcases mul_eq_zero.mp h' with h'' | h'' <;> omega
    exact ⟨_, SetCell_err_oob cell hb⟩
  · intro hnc
    have hb : ¬(x ≥ id.Width ∨ y ≥ id.Height ∨ x < 0 ∨ y < 0) := by
      push_neg at hnc ⊢
      omega
    exact SetCell_ok_of cell hb (inbounds_index_lt hinv hb)
  · intro a b
    constructor
    · exact ⟨_, GetCell_err_len0 a b
        (by decide : (ImageData.Init 0 0).Cells.length = 0)⟩
    · refine ⟨_, SetCell_err_oob cell ?_⟩
      change a ≥ (0 : Int) ∨ b ≥ (0 : Int) ∨ a < 0 ∨ b < 0
      omega

theorem getCell_setCell_spec_witness :
    ((∃ e, (⟨1, 1, [CellData.cleared]⟩ : ImageData).GetCell 2 0 = .error e) ↔
      ((2 : Int) < 0 ∨ (2 : Int) ≥ (⟨1, 1, [CellData.cleared]⟩ : ImageData).Width ∨
        (0 : Int) < 0 ∨ (0 : Int) ≥ (⟨1, 1, [CellData.cleared]⟩ : ImageData).Height ∨
        (⟨1, 1, [CellData.cleared]⟩ : ImageData).Cells.length = 0)) ∧
    (∃ e, (ImageData.Init 0 0).GetCell 0 0 = .error e) ∧
    (∃ e, (ImageData.Init 0 0).SetCell 0 0 CellData.zero = .error e) :=
  ⟨(getCell_setCell_spec ⟨1, 1, [CellData.cleared]⟩ 2 0 CellData.zero (by decide)).1,
   ((getCell_setCell_spec ⟨1, 1, [CellData.cleared]⟩ 2 0 CellData.zero (by decide)).2.2.2.2 0 0).1,
   ((getCell_setCell_spec ⟨1, 1, [CellData.cleared]⟩ 2 0 CellData.zero (by decide)).2.2.2.2 0 0).2⟩

/-- C9: `Init(w,h)` with non-negative dimensions produces an image satisfying
`len(Cells) = Width*Height` with every cell set to the cleared/undrawn
default; every image returned by a successful import satisfies the same
invariant; and every successful `SetCell` preserves the dimensions and the
cell-list length (hence the invariant). -/
theorem image_invariant_spec :
    (∀ w h : Int, 0 ≤ w → 0 ≤ h →
      (((ImageData.Init w h).Cells.length : Int) =
        (ImageData.Init w h).Width * (ImageData.Init w h).Height) ∧
      ∀ c ∈ (ImageData.Init w h).Cells, c = CellData.cleared) ∧
    (∀ (bs : List Nat) (img : ImageData), importBytes bs = .ok img →
      (img.Cells.length : Int) = img.Width * img.Height) ∧
    (∀ (id : ImageData) (x y : Int) (cell : CellData) (id2 : ImageData),
      id.SetCell x y cell = .ok id2 →
      id2.Width = id.Width ∧ id2.Height = id.Height ∧
        id2.Cells.length = id.Cells.length) := by
  refine ⟨?_, ?_, ?_⟩
  · intro w h hw hh
    constructor
    · show ((List.replicate (w * h).toNat CellData.cleared).length : Int) = w * h
      rw [List.length_replicate, Int.toNat_of_nonneg (mul_nonneg hw hh)]
    · intro c hc
      exact (List.mem_replicate.mp hc).2
  · intro bs img h
    obtain ⟨w, h2, hW, hH, hlen⟩ := importBytes_ok_dims h
    rw [hW, hH, hlen]
    push_cast
    ring
  · intro id x y cell id2 h
    unfold ImageData.SetCell at h
    by_cases hb : x ≥ id.Width ∨ y ≥ id.Height ∨ x < 0 ∨ y < 0
    · rw [if_pos hb] at h
      exact absurd h (by simp)
    · rw [if_neg hb] at h
      by_cases hlt : (x + y * id.Width).toNat < id.Cells.length
      · rw [if_pos hlt] at h
        obtain rfl : ({ id with Cells := id.Cells.set (x + y * id.Width).toNat cell } :
            ImageData) = id2 := Except.ok.injEq .. ▸ h
        exact ⟨rfl, rfl, List.length_set ..⟩
      · rw [if_neg hlt] at h
        exact absurd h (by simp)

theorem image_invariant_spec_witness :
    ((((ImageData.Init 2 3).Cells.length : Int) =
        (ImageData.Init 2 3).Width * (ImageData.Init 2 3).Height) ∧
      ∀ c ∈ (ImageData.Init 2 3).Cells, c = CellData.cleared) ∧
    (((⟨0, 0, []⟩ : ImageData).Cells.length : Int) =
      (⟨0, 0, []⟩ : ImageData).Width * (⟨0, 0, []⟩ : ImageData).Height) ∧
    ((⟨1, 1, [CellData.zero]⟩ : ImageData).Width =
        (⟨1, 1, [CellData.cleared]⟩ : ImageData).Width ∧
      (⟨1, 1, [CellData.zero]⟩ : ImageData).Height =
        (⟨1, 1, [CellData.cleared]⟩ : ImageData).Height ∧
      (⟨1, 1, [CellData.zero]⟩ : ImageData).Cells.length =
        (⟨1, 1, [CellData.cleared]⟩ : ImageData).Cells.length) :=
  ⟨image_invariant_spec.1 2 3 (by norm_num) (by norm_num),
   image_invariant_spec.2.1 [0, 0, 0, 0, 0, 0, 0, 0, 0, 0, 0, 0, 0, 0, 0, 0]
     ⟨0, 0, []⟩ (by decide),
   image_invariant_spec.2.2 ⟨1, 1, [CellData.cleared]⟩ 0 0 CellData.zero
     ⟨1, 1, [CellData.zero]⟩ (by decide)⟩
